import Mathlib

set_option maxHeartbeats 1000000

/-!  Verification development for the Serv_YMBidder reconciliation / pricing
pipeline (src/main.py, src/scr/update_data_ym.py, src/scr/update_ym.py).

The Python sources are shallowly embedded.  Pandas numeric cells that can be
NaN are values of type Option Rat, with none standing for NaN (a missing or
unparseable value); comparisons against NaN are False, arithmetic with NaN
propagates NaN, exactly as for Python floats.  The randomized draws of the
price engine (random.randint / random.uniform) are explicit parameters of
the embedded functions, so that the decision logic is a pure function of the
row and of the drawn numbers.  -/

namespace YMBidder

/-- A pandas numeric cell after pd.to_numeric(errors := coerce): none models
NaN, i.e. a missing or unparseable value. -/
abbrev PCell := Option ℚ

/-- Python float comparison a > b: every comparison involving NaN is False. -/
def ogt (a b : PCell) : Bool :=
  match a, b with
  | some x, some y => decide (y < x)
  | _, _ => false

/-- Python float comparison a < b: every comparison involving NaN is False. -/
def olt (a b : PCell) : Bool :=
  match a, b with
  | some x, some y => decide (x < y)
  | _, _ => false

/-- Python float comparison a <= b: every comparison involving NaN is False. -/
def ole (a b : PCell) : Bool :=
  match a, b with
  | some x, some y => decide (x ≤ y)
  | _, _ => false

/-- Python float comparison a >= b: every comparison involving NaN is False. -/
def oge (a b : PCell) : Bool :=
  match a, b with
  | some x, some y => decide (y ≤ x)
  | _, _ => false

/-- Python float equality ==: NaN is equal to nothing, not even itself. -/
def pyEqCell (a b : PCell) : Bool :=
  match a, b with
  | some x, some y => decide (x = y)
  | _, _ => false

/-- Python float disequality !=: NaN is different from everything, itself
included. -/
def pyNeq (a b : PCell) : Bool :=
  match a, b with
  | some x, some y => decide (x ≠ y)
  | _, _ => true

/-- Subtraction of cells; NaN propagates. -/
def osub (a b : PCell) : PCell :=
  match a, b with
  | some x, some y => some (x - y)
  | _, _ => none

/-- Addition of cells; NaN propagates. -/
def oadd (a b : PCell) : PCell :=
  match a, b with
  | some x, some y => some (x + y)
  | _, _ => none

/-- Python max(a, b): returns b when b > a, else a; with a NaN argument this
is order dependent exactly as in CPython. -/
def pymax (a b : PCell) : PCell :=
  if ogt b a then b else a

/-- Python int() applied to a float: truncation toward zero. -/
def pyTrunc (q : ℚ) : ℤ :=
  if 0 ≤ q then ⌊q⌋ else ⌈q⌉

/-- Python int() applied to a float cell: raises ValueError on NaN, which the
embedding reports as none. -/
def pyIntCell (a : PCell) : Option ℤ :=
  a.map pyTrunc

/-- Python round(x, 0): round half to even, result returned as a number. -/
def roundHalfEven (q : ℚ) : ℤ :=
  let f := ⌊q⌋
  if q - f < 1/2 then f
  else if (1/2 : ℚ) < q - f then f + 1
  else if Even f then f else f + 1

/-!  Embedding of update_dataframe (src/scr/update_data_ym.py, lines 24-135):
the reconciliation merger.  A tabular row is a function from the column set
to optional string cells (none = NaN).  The columns are those named by
COLUMNS_FULL in src/main.py plus the two threshold columns that only the
market report carries.  -/

/-- The columns of the reconciled table: SHOP_SKU, OFFER, LINK,
MERCH_PRICE_WITH_PROMOS, STOP, PRICE_VALUE_ON_MARKET,
SHOP_WITH_BEST_PRICE_ON_MARKET, PRIM, PRICE_GREEN_THRESHOLD,
PRICE_RED_THRESHOLD. -/
inductive Col
  | sku | offer | link | price | stop | mp | holder | prim | green | red
deriving DecidableEq

/-- A row of a tabular dataset: one optional string cell per column
(none = NaN). -/
abbrev MRow := Col → Option String

/-- The normalized SKU key of a row. -/
def skuKey (r : MRow) : Option String := r Col.sku

/-- Numeric value of an all-digit string. -/
def strToNatDigits (t : String) : ℕ :=
  t.foldl (fun a c => a * 10 + (c.toNat - 48)) 0

/-- standardize_shop_sku (update_data_ym.py lines 30-38) on a non-NaN cell:
trim, and strip leading zeros when the trimmed value is all digits (Python
str(int(v))). -/
def standardize_shop_sku (s : String) : String :=
  let t := s.trim
  if t ≠ "" ∧ t.data.all Char.isDigit then Nat.repr (strToNatDigits t) else t

/-- Application of standardize_shop_sku to the SKU cell of a row; a NaN SKU
stays NaN (pd.isna branch). -/
def normalizeRow (r : MRow) : MRow := fun c =>
  if c = Col.sku then (r Col.sku).map standardize_shop_sku else r c

/-- pandas drop_duplicates(subset := SHOP_SKU, keep := first), with an
accumulator of the keys already seen; pandas treats NaN keys as duplicates
of each other, which Option equality reproduces. -/
def dropDupFirst (seen : List (Option String)) : List MRow → List MRow
  | [] => []
  | r :: rs =>
    if skuKey r ∈ seen then dropDupFirst seen rs
    else r :: dropDupFirst (skuKey r :: seen) rs

/-- update_columns (update_data_ym.py lines 72-87): the mapped columns of
COLUMNS_FULL that the market source carries, in the order of the source
lists, followed by the two threshold columns when present.  cols2 says which
columns the market dataframe has. -/
def updateColumns (cols2 : Col → Bool) : List Col :=
  ([Col.offer, Col.link, Col.price, Col.stop, Col.mp, Col.holder, Col.prim].filter cols2)
    ++ ([Col.green, Col.red].filter cols2)

/-- One merged row for a SKU present on both sides
(merged[col] = merged[col_new].fillna(merged[col]), lines 99-102): on every
update column the market value wins when it is not NaN, otherwise the
own-listing value survives; other columns keep the own-listing value. -/
def combineRow (uc : List Col) (r1 r2 : MRow) : MRow := fun c =>
  if c ∈ uc then ((r2 c).orElse fun _ => r1 c) else r1 c

/-- A merged row for a SKU present only in the market source: the outer join
leaves NaN in every column the market slice does not carry. -/
def rightOnly (uc : List Col) (r2 : MRow) : MRow := fun c =>
  if c = Col.sku ∨ c ∈ uc then r2 c else none

/-- update_dataframe (update_data_ym.py lines 24-135): standardize the SKU on
both sides, drop own-listing duplicates keeping the first, outer-join on the
SKU against the market slice restricted to SHOP_SKU plus the update columns,
resolve every update column by fillna (market wins when non-NaN), and drop
any remaining duplicate SKU keeping the first. -/
def update_dataframe (df1 df2 : List MRow) (cols2 : Col → Bool) : List MRow :=
  let r1s := df1.map normalizeRow
  let r2s := df2.map normalizeRow
  let d1 := dropDupFirst [] r1s
  let uc := updateColumns cols2
  let left := d1.flatMap (fun a =>
    let ms := r2s.filter (fun b => decide (skuKey b = skuKey a))
    if ms.isEmpty then [a] else ms.map (fun b => combineRow uc a b))
  let right := (r2s.filter
      (fun b => !(d1.any (fun a => decide (skuKey a = skuKey b))))).map (rightOnly uc)
  dropDupFirst [] (left ++ right)

/-- Number of distinct normalized SKUs of a dataset. -/
def distinctSkuCount (df : List MRow) : ℕ :=
  ((df.map normalizeRow).map skuKey).toFinset.card

/-!  Embedding of compare_prices_and_create_for_update and its inner
calculate_new_price (src/scr/update_data_ym.py, lines 137-505): the price
decision engine.  A decision row carries the cells the engine reads, with
the three price columns already coerced by pd.to_numeric(errors := coerce)
(none = NaN, i.e. missing or unparseable).  -/

/-- A merged row as the decision engine sees it: SKU, current price
(MERCH_PRICE_WITH_PROMOS), market reference price (PRICE_VALUE_ON_MARKET),
floor price (STOP), best-price holder (SHOP_WITH_BEST_PRICE_ON_MARKET). -/
structure CRow where
  sku : Option String
  price : PCell
  mp : PCell
  stop : PCell
  holder : Option String
deriving DecidableEq

/-- The values the engine draws from the random module in one call of
calculate_new_price: rand1 = randint(min_price_diff, max_price_diff),
rand2 = randint(20, 50), rand3 = randint(int(min_new), int(max_new)),
du = uniform(new_price * 1.3, new_price * 1.6). -/
structure Draws where
  rand1 : ℤ
  rand2 : ℤ
  rand3 : ℤ
  du : ℚ
deriving DecidableEq

/-- The human-readable reason attached to a row, one constructor per message
string of the source (the strings themselves are Russian). -/
inductive Reason
  /-- Line 281: price far below market, computed price clipped up to stop. -/
  | farBelowSetStop
  /-- Line 286: price far below market, raised toward the reference. -/
  | farBelowRaised
  /-- Line 305: price below stop, raised to stop plus a random increment. -/
  | belowStopRaised
  /-- Line 312: one of the own shops already holds the minimum price. -/
  | ownShopBest
  /-- Line 324: invalid price range, no change. -/
  | invalidRange
  /-- Line 335: price changed into the computed window. -/
  | priceChanged
  /-- Line 348: exception caught while computing the new price. -/
  | calcError
  /-- Line 364: empty value in the STOP column, row excluded. -/
  | emptyStop
  /-- Line 397: the row does not satisfy the price-change conditions. -/
  | notSatisfyConditions
  /-- Line 440: the market reference is at or below the stop price. -/
  | mpBelowStop
  /-- Line 352: the initial empty PRIM value. -/
  | blank
deriving DecidableEq

/-- Result of one calculate_new_price call: the new price cell, the reason,
and the discount base (outer none = Python None for unchanged outcomes,
inner none = NaN). -/
structure CalcRes where
  newPrice : PCell
  reason : Reason
  discountBase : Option PCell
deriving DecidableEq

/-- The value returned by the except-branch of calculate_new_price
(lines 342-348): the old price, an error reason, no discount base. -/
def calcErrRes (r : CRow) : CalcRes :=
  { newPrice := r.price, reason := Reason.calcError, discountBase := none }

/-- The discount base drawn at a price change: uniform(np * 1.3, np * 1.6)
rounded by round(x, 0); NaN when the new price is NaN. -/
def discountOf (np : PCell) (du : ℚ) : PCell :=
  np.map (fun _ => ((roundHalfEven du : ℤ) : ℚ))

/-- The normal-adjustment window of calculate_new_price (lines 314-321):
(min_new_price, max_new_price), branching on price - mp_on_market >
max_price_diff. -/
def b4Window (r : CRow) (mn mx : ℤ) : PCell × PCell :=
  if ogt (osub r.price r.mp) (some (mx : ℚ)) then
    (pymax (osub r.mp (some (mx : ℚ))) r.stop, osub r.mp (some (mn : ℚ)))
  else
    (pymax (osub r.mp (some (mn : ℚ))) r.stop, osub r.mp (some 1))

/-- calculate_new_price (update_data_ym.py lines 266-348) as a pure function
of the row, the own-shop whitelist, the two adjustment bounds and the drawn
random values.  Every arithmetic step follows Python float semantics with
NaN as none; a randint call with NaN or inverted bounds raises ValueError,
which the except-branch turns into calcErrRes. -/
def calculate_new_price (r : CRow) (myMarket : List String) (mn mx : ℤ)
    (d : Draws) : CalcRes :=
  if ogt (osub r.mp r.price) (some (mx : ℚ)) then
    if mn ≤ mx then
      let preliminary := osub r.mp (some (d.rand1 : ℚ))
      let np := pymax preliminary r.stop
      { newPrice := np,
        reason := if pyEqCell np r.stop then Reason.farBelowSetStop
                  else Reason.farBelowRaised,
        discountBase := some (discountOf np d.du) }
    else calcErrRes r
  else if olt r.price r.stop then
    let np := oadd r.stop (some (d.rand2 : ℚ))
    { newPrice := np, reason := Reason.belowStopRaised,
      discountBase := some (discountOf np d.du) }
  else if (match r.holder with
           | some h => decide (h ∈ myMarket)
           | none => false) then
    { newPrice := r.price, reason := Reason.ownShopBest, discountBase := none }
  else
    let w := b4Window r mn mx
    if oge w.1 w.2 then
      { newPrice := r.price, reason := Reason.invalidRange, discountBase := none }
    else
      match pyIntCell w.1, pyIntCell w.2 with
      | some a, some b =>
        if a ≤ b then
          match pyIntCell r.stop with
          | some stI =>
            let np : ℤ := max d.rand3 stI
            { newPrice := some (np : ℚ), reason := Reason.priceChanged,
              discountBase := some (discountOf (some (np : ℚ)) d.du) }
          | none => calcErrRes r
        else calcErrRes r
      | _, _ => calcErrRes r

/-- Validity of the drawn values for one row: each randint result lies in
the bounds it was drawn with whenever that call can succeed. -/
def validDraws (r : CRow) (mn mx : ℤ) (d : Draws) : Bool :=
  (!(decide (mn ≤ mx)) || (decide (mn ≤ d.rand1) && decide (d.rand1 ≤ mx)))
  && (decide (20 ≤ d.rand2) && decide (d.rand2 ≤ 50))
  && (match pyIntCell (b4Window r mn mx).1, pyIntCell (b4Window r mn mx).2 with
      | some a, some b =>
        !(decide (a ≤ b)) || (decide (a ≤ d.rand3) && decide (d.rand3 ≤ b))
      | _, _ => true)

/-- empty_stop_mask (line 363): the STOP cell is NaN. -/
def empty_stop_mask (r : CRow) : Bool := r.stop.isNone

/-- The NaN mask over the three coerced numeric columns (line 373). -/
def nan_mask (r : CRow) : Bool :=
  r.price.isNone || r.mp.isNone || r.stop.isNone

/-- The eligibility mask of lines 386-391, with Python operator precedence:
(price > mp_on_market) and (mp_on_market > stop) and (price < stop), or-ed
with (stop is not NaN). -/
def eligMask (r : CRow) : Bool :=
  (ogt r.price r.mp && ogt r.mp r.stop && olt r.price r.stop)
    || !(empty_stop_mask r)

/-- failed_conditions_mask (line 394): not eligible, stop present, no NaN. -/
def failed_conditions_mask (r : CRow) : Bool :=
  !(eligMask r) && !(empty_stop_mask r) && !(nan_mask r)

/-- The condition of the warning loop at lines 437-450: mp_on_market and
stop both present and mp_on_market <= stop. -/
def loopMask (r : CRow) : Bool := ole r.mp r.stop

/-- The decision-engine parameters of one
compare_prices_and_create_for_update call: the own-shop whitelist, the two
adjustment bounds, and the random draws of each row (indexed by the row's
position). -/
structure CmpEnv where
  myMarket : List String
  mn : ℤ
  mx : ℤ
  draws : ℕ → Draws

/-- The calculate_new_price result of the row at position i (the engine is
invoked only on rows selected by the mask). -/
def rowCalc (e : CmpEnv) (i : ℕ) (r : CRow) : CalcRes :=
  calculate_new_price r e.myMarket e.mn e.mx (e.draws i)

/-- price_changed (lines 405-412): the row was selected by the mask and the
returned price compares != to the old one (Python float !=, so NaN != NaN
is True). -/
def changedAt (e : CmpEnv) (i : ℕ) (r : CRow) : Bool :=
  eligMask r && pyNeq (rowCalc e i r).newPrice r.price

/-- The price column of updated_df after line 414: the calculated price for
mask rows, the original price otherwise. -/
def updatedPriceAt (e : CmpEnv) (i : ℕ) (r : CRow) : PCell :=
  if eligMask r then (rowCalc e i r).newPrice else r.price

/-- The PRIM column of updated_df at return: initialized to blank
(line 352), set for empty-stop rows (line 364), overwritten with the
calculation reason for mask rows (line 415), finally overwritten by the
warning loop for rows with mp_on_market <= stop (line 445). -/
def primAt (e : CmpEnv) (i : ℕ) (r : CRow) : Reason :=
  if loopMask r then Reason.mpBelowStop
  else if eligMask r then (rowCalc e i r).reason
  else if empty_stop_mask r then Reason.emptyStop
  else Reason.blank

/-- Positions (pandas index labels) of the rows satisfying a predicate, the
counter starting at n. -/
def idxWhereAux (p : ℕ → CRow → Bool) : List CRow → ℕ → List ℕ
  | [], _ => []
  | r :: rs, n => (if p n r then [n] else []) ++ idxWhereAux p rs (n + 1)

/-- Positions of the rows satisfying a predicate. -/
def idxWhere (p : ℕ → CRow → Bool) (rows : List CRow) : List ℕ :=
  idxWhereAux p rows 0

/-- failed_attempts_df as the list of row positions appended to it, in
program order: the empty-stop rows (line 368), the NaN rows (line 381), the
failed-conditions rows (line 398), the mask rows whose price did not change
(line 420), and the rows caught by the mp_on_market <= stop warning loop
(line 447). -/
def failedAttemptsIdx (e : CmpEnv) (rows : List CRow) : List ℕ :=
  idxWhere (fun _ r => empty_stop_mask r) rows
    ++ idxWhere (fun _ r => nan_mask r) rows
    ++ idxWhere (fun _ r => failed_conditions_mask r) rows
    ++ idxWhere (fun i r => eligMask r
          && !(pyNeq (rowCalc e i r).newPrice r.price)) rows
    ++ idxWhere (fun _ r => loopMask r) rows

/-- for_update (line 453): the positions of the rows whose price changed. -/
def forUpdateIdx (e : CmpEnv) (rows : List CRow) : List ℕ :=
  idxWhere (fun i r => changedAt e i r) rows

/-- The rows inserted into the price_change_history table
(save_price_changes_to_db with is_successful, lines 208-228, called at
line 490 on for_update): exactly the changed rows. -/
def priceChangeHistoryIdx (e : CmpEnv) (rows : List CRow) : List ℕ :=
  forUpdateIdx e rows

/-!  Embedding of update_price_ym (src/scr/update_ym.py, lines 9-99): the
dispatch engine.  Per-item processing (discount-base parsing, payload
construction, dry-run branching) is a pure function; the concurrency
behaviour of the semaphore-guarded tasks is a transition system.  -/

/-- A Python value that can sit in the discount-base cell of the dispatch
dataframe: a string, an integer, or a float (none = NaN). -/
inductive PyVal
  | vstr (s : String)
  | vint (n : ℤ)
  | vfloat (q : PCell)
deriving DecidableEq

/-- Whitespace stripped from both ends of a character list. -/
def trimChars (l : List Char) : List Char :=
  ((l.dropWhile Char.isWhitespace).reverse.dropWhile Char.isWhitespace).reverse

/-- Digits of a trimmed decimal literal as an integer. -/
def parseDigits (t : List Char) : Option ℤ :=
  if t ≠ [] ∧ t.all Char.isDigit then
    some ((t.foldl (fun a c => a * 10 + (c.toNat - 48)) 0 : ℕ) : ℤ)
  else none

/-- Python int() applied to a string: optional sign and digits after
stripping surrounding whitespace; everything else raises ValueError
(none). -/
def parseIntStr (s : String) : Option ℤ :=
  let t := trimChars s.data
  if t.head? = some '-' then (parseDigits (t.drop 1)).map Neg.neg
  else if t.head? = some '+' then parseDigits (t.drop 1)
  else parseDigits t

/-- Python int() on a discount-base cell value: a non-numeric string and a
NaN float raise ValueError (none); a float truncates toward zero. -/
def pyIntOfVal : PyVal → Option ℤ
  | PyVal.vint n => some n
  | PyVal.vstr s => parseIntStr s
  | PyVal.vfloat (some q) => some (pyTrunc q)
  | PyVal.vfloat none => none

/-- One row of the dispatch dataframe: offer id, new price, discount base. -/
structure DispatchItem where
  offerId : String
  newPrice : ℚ
  discountBase : PyVal
deriving DecidableEq

/-- The JSON payload body built at lines 43-54: one offer with
currencyId RUR. -/
structure Payload where
  offerId : String
  value : ℚ
  discountBase : ℤ
deriving DecidableEq

/-- What the engine does with one item: send the request (debug off) or only
log the payload (debug on, lines 62-74). -/
inductive DispatchAction
  | send (p : Payload)
  | logPayload (p : Payload)
deriving DecidableEq

/-- The payload carried by a dispatch action. -/
def DispatchAction.payload : DispatchAction → Payload
  | DispatchAction.send p => p
  | DispatchAction.logPayload p => p

/-- Per-item processing of update_price_ym (lines 25-79): try
int(discount_base), on ValueError log a warning and substitute 0; build the
payload; in debug mode log it, otherwise send it.  The Bool records whether
the warning was logged. -/
def processOffer (debug : Bool) (it : DispatchItem) : DispatchAction × Bool :=
  let parsed := pyIntOfVal it.discountBase
  let db := parsed.getD 0
  let warned := parsed.isNone
  let payload : Payload :=
    { offerId := it.offerId, value := it.newPrice, discountBase := db }
  (if debug then DispatchAction.logPayload payload
   else DispatchAction.send payload, warned)

/-- update_price_ym over a whole batch: one action per item, no item ever
aborts the loop. -/
def update_price_ym (debug : Bool) (items : List DispatchItem) :
    List (DispatchAction × Bool) :=
  items.map (processOffer debug)

/-- The capacity of the asyncio.Semaphore created at update_ym.py line 21. -/
def semCapacity : ℕ := 4

/-- The scheduling state of one rate_limited_request task: not yet holding
the semaphore, holding it (request in flight), or finished (released). -/
inductive ReqState
  | pending
  | inFlight
  | finished
deriving DecidableEq

/-- Number of requests currently in flight. -/
def inFlightCount (s : List ReqState) : ℕ := s.count ReqState.inFlight

/-- The transition system of the semaphore-guarded dispatch tasks
(rate_limited_request, lines 86-99): a pending task may enter the semaphore
only while fewer than semCapacity requests are in flight; an in-flight task
may finish, releasing its slot.  -/
inductive DispatchStep : List ReqState → List ReqState → Prop
  | acquire (s : List ReqState) (i : ℕ) (hi : s.get? i = some ReqState.pending)
      (hc : inFlightCount s < semCapacity) :
      DispatchStep s (s.set i ReqState.inFlight)
  | release (s : List ReqState) (i : ℕ) (hi : s.get? i = some ReqState.inFlight) :
      DispatchStep s (s.set i ReqState.finished)

/-- The initial state of a dispatch batch of n tasks, all pending. -/
def initialBatch (n : ℕ) : List ReqState := List.replicate n ReqState.pending

/-- States reachable by the dispatch of a batch of n tasks. -/
def DispatchReachable (n : ℕ) (s : List ReqState) : Prop :=
  Relation.ReflTransGen DispatchStep (initialBatch n) s

/-!  Embedding of the audit/dispatch/write-back sequencing of one cycle
(process_yandex_market_data in src/main.py, lines 196-235, together with
save_price_changes_to_db in src/scr/update_data_ym.py, lines 163-264 and
479-495): what the cycle does after the decision phase, and how a storage
error cuts it short.  -/

/-- The externally visible steps of the tail of one cycle. -/
inductive CycleAction
  /-- Insertion of the failed attempts into failed_price_change_attempts. -/
  | auditFailedWrite
  /-- Insertion of the changed rows into price_change_history. -/
  | auditSuccessWrite
  /-- write_sheet_data of the post-decision dataframe (main.py line 208). -/
  | writeBack
  /-- update_price_ym over for_update (main.py line 221). -/
  | dispatch
deriving DecidableEq

/-- The tail of one cycle: compare_prices_and_create_for_update writes the
failed attempts (line 481) and then the successful changes (line 490) to
the audit store, re-raising any sqlite3.Error (lines 258-264); only when it
returns does main.py write the final dataframe back (line 208) and dispatch
the changed rows (line 221, skipped when for_update is empty).  The two
Bool flags say whether the respective audit write fails; the result is the
performed actions and whether a storage error aborted the cycle. -/
def runCycleTail (e : CmpEnv) (rows : List CRow)
    (failFailedSave failSuccessSave : Bool) : List CycleAction × Bool :=
  let fa := failedAttemptsIdx e rows
  let fu := forUpdateIdx e rows
  if !fa.isEmpty && failFailedSave then ([], true)
  else
    let t1 : List CycleAction :=
      if fa.isEmpty then [] else [CycleAction.auditFailedWrite]
    if !fu.isEmpty && failSuccessSave then (t1, true)
    else
      let t2 := t1 ++ (if fu.isEmpty then [] else [CycleAction.auditSuccessWrite])
      (t2 ++ [CycleAction.writeBack]
          ++ (if fu.isEmpty then [] else [CycleAction.dispatch]), false)

/-!  Helper lemmas about the position lists of the decision phase.  -/

lemma idxWhereAux_count_lt (p : ℕ → CRow → Bool) (l : List CRow) (n m : ℕ)
    (h : m < n) : (idxWhereAux p l n).count m = 0 := by
  induction l generalizing n with
  | nil => simp [idxWhereAux]
  | cons r rs ih =>
    simp only [idxWhereAux, List.count_append]
    rw [ih (n + 1) (by omega)]
    have hne : n ≠ m := by omega
    by_cases hp : p n r <;> simp [hp, List.count_cons, hne]

lemma idxWhereAux_count (p : ℕ → CRow → Bool) (l : List CRow) (n k : ℕ) :
    (idxWhereAux p l n).count (n + k) =
      (l[k]?.elim 0 (fun r => if p (n + k) r then 1 else 0)) := by
  induction l generalizing n k with
  | nil => simp [idxWhereAux]
  | cons r rs ih =>
    simp only [idxWhereAux, List.count_append]
    cases k with
    | zero =>
      rw [idxWhereAux_count_lt p rs (n + 1) (n + 0) (by omega)]
      simp only [Nat.add_zero]
      by_cases hp : p n r <;> simp [hp, List.count_cons]
    | succ k =>
      have hrw : n + (k + 1) = (n + 1) + k := by omega
      rw [hrw, ih (n + 1) k]
      have hne : n ≠ n + 1 + k := by omega
      by_cases hp : p n r <;> simp [hp, List.count_cons, hne]

lemma idxWhere_count (p : ℕ → CRow → Bool) (rows : List CRow) (i : ℕ) :
    (idxWhere p rows).count i =
      (rows[i]?.elim 0 (fun r => if p i r then 1 else 0)) := by
  have h := idxWhereAux_count p rows 0 i
  simpa [idxWhere] using h

lemma idxWhere_mem (p : ℕ → CRow → Bool) (rows : List CRow) (i : ℕ) :
    i ∈ idxWhere p rows ↔ ∃ r, rows[i]? = some r ∧ p i r = true := by
  rw [← List.count_pos_iff, idxWhere_count]
  cases hr : rows[i]? with
  | none => simp
  | some r =>
    by_cases hp : p i r
    · simp [hp]
    · simp [hp]

lemma ogt_none_right (a : PCell) : ogt a none = false := by cases a <;> rfl

lemma olt_none_right (a : PCell) : olt a none = false := by cases a <;> rfl

lemma ole_none_right (a : PCell) : ole a none = false := by cases a <;> rfl

lemma eligMask_stop_none (r : CRow) (h : r.stop = none) : eligMask r = false := by
  simp [eligMask, empty_stop_mask, h, ogt_none_right, olt_none_right]

lemma eligMask_eq_stop_isSome (r : CRow) : eligMask r = r.stop.isSome := by
  cases hst : r.stop with
  | none => simp [eligMask_stop_none r hst, hst]
  | some s => simp [eligMask, empty_stop_mask, hst]

lemma failed_conditions_mask_false (r : CRow) : failed_conditions_mask r = false := by
  cases hst : r.stop with
  | none => simp [failed_conditions_mask, empty_stop_mask, hst]
  | some s =>
    simp [failed_conditions_mask, eligMask_eq_stop_isSome, hst]

/-!  Claims about the decision phase (C1, C3, C10).  -/

/-- A merged row whose price ordering fails the claimed eligibility
condition: currentPrice 100 is not greater than marketReferencePrice 120,
while the floor 50 is present and all numerics parse. -/
def c1Row : CRow := ⟨some "1", some 100, some 120, some 50, some "x"⟩

/-- Decision parameters for the C1 run: whitelist not containing the
holder, bounds 10/50, and the draw randint(int(110), int(119)) = 115. -/
def c1Env : CmpEnv := ⟨["m"], 10, 50, fun _ => ⟨10, 20, 115, 0⟩⟩

/-- C1.  The eligibility mask of lines 386-391 does not implement
currentPrice > marketReferencePrice > floorPrice: because the and-clause
also demands price < stop it is unsatisfiable, so the whole mask collapses
to "floor present", the failed-conditions branch (reason "does not satisfy
price-change conditions") is dead code, and a row violating the ordering —
c1Row has price 100 < marketReference 120 — is admitted and actually gets
its price changed to 115. -/
theorem c1_mask_ignores_price_ordering :
    (∀ r : CRow, eligMask r = r.stop.isSome) ∧
    (∀ r : CRow, failed_conditions_mask r = false) ∧
    eligMask c1Row = true ∧
    changedAt c1Env 0 c1Row = true ∧
    updatedPriceAt c1Env 0 c1Row = some 115 ∧
    forUpdateIdx c1Env [c1Row] = [0] := by
  refine ⟨eligMask_eq_stop_isSome, failed_conditions_mask_false, by decide, ?_, ?_, ?_⟩
  · norm_num [changedAt, rowCalc, c1Env, c1Row, calculate_new_price, osub, ogt,
      olt, ole, oge, pymax, pyEqCell, b4Window, pyIntCell, pyTrunc, oadd,
      discountOf, eligMask, empty_stop_mask, pyNeq]
    simp
  · norm_num [updatedPriceAt, rowCalc, c1Env, c1Row, calculate_new_price, osub,
      ogt, olt, ole, oge, pymax, pyEqCell, b4Window, pyIntCell, pyTrunc, oadd,
      discountOf, eligMask, empty_stop_mask]
    simp
  · norm_num [forUpdateIdx, idxWhere, idxWhereAux, changedAt, rowCalc, c1Env,
      c1Row, calculate_new_price, osub, ogt, olt, ole, oge, pymax, pyEqCell,
      b4Window, pyIntCell, pyTrunc, oadd, discountOf, eligMask,
      empty_stop_mask, pyNeq]
    simp

/-- C10.  A row with an absent floor price is appended to failed_attempts_df
twice — once by the empty-stop check of line 368 and once by the NaN check
of line 381 (STOP is one of the coerced numeric columns) — so its position
occurs exactly twice in the list of failed-attempt inserts of the cycle. -/
theorem c10_empty_floor_double_insert (e : CmpEnv) (rows : List CRow) (i : ℕ)
    (r : CRow) (hi : rows[i]? = some r) (hstop : r.stop = none) :
    (failedAttemptsIdx e rows).count i = 2 := by
  have h1 := idxWhere_count (fun _ r => empty_stop_mask r) rows i
  have h2 := idxWhere_count (fun _ r => nan_mask r) rows i
  have h3 := idxWhere_count (fun _ r => failed_conditions_mask r) rows i
  have h4 := idxWhere_count
      (fun j r => eligMask r && !(pyNeq (rowCalc e j r).newPrice r.price)) rows i
  have h5 := idxWhere_count (fun _ r => loopMask r) rows i
  rw [hi] at h1 h2 h3 h4 h5
  simp only [Option.elim_some] at h1 h2 h3 h4 h5
  rw [empty_stop_mask, hstop] at h1
  rw [nan_mask, hstop] at h2
  rw [failed_conditions_mask_false r] at h3
  rw [eligMask_stop_none r hstop] at h4
  rw [loopMask, hstop, ole_none_right] at h5
  simp only [failedAttemptsIdx, List.count_append]
  simp at h1 h2 h3 h4 h5
  omega

/-- C10 witness: a concrete one-row dataset with an absent floor is counted
twice among the failed-attempt inserts. -/
theorem c10_empty_floor_double_insert_witness :
    (failedAttemptsIdx ⟨["m"], 10, 50, fun _ => ⟨10, 20, 115, 0⟩⟩
        [⟨some "9", none, none, none, none⟩]).count 0 = 2 :=
  c10_empty_floor_double_insert ⟨["m"], 10, 50, fun _ => ⟨10, 20, 115, 0⟩⟩
    [⟨some "9", none, none, none, none⟩] 0 ⟨some "9", none, none, none, none⟩
    (by decide) (by decide)

/-- C3.  A row whose floor price is absent is never marked changed, its
note cites the empty STOP value, it is recorded among the failed-attempt
inserts, and it is never among the rows inserted into the
price_change_history table. -/
theorem c3_empty_floor_excluded (e : CmpEnv) (rows : List CRow) (i : ℕ)
    (r : CRow) (hi : rows[i]? = some r) (hstop : r.stop = none) :
    changedAt e i r = false ∧
    primAt e i r = Reason.emptyStop ∧
    i ∈ failedAttemptsIdx e rows ∧
    i ∉ forUpdateIdx e rows ∧
    i ∉ priceChangeHistoryIdx e rows := by
  have hmask := eligMask_stop_none r hstop
  have hch : changedAt e i r = false := by simp [changedAt, hmask]
  have hnofu : i ∉ forUpdateIdx e rows := by
    rw [forUpdateIdx, idxWhere_mem]
    rintro ⟨r2, hr2, hp⟩
    rw [hi] at hr2
    cases hr2
    rw [hch] at hp
    exact Bool.false_ne_true hp
  refine ⟨hch, ?_, ?_, hnofu, hnofu⟩
  · simp [primAt, loopMask, hstop, ole_none_right, hmask, empty_stop_mask]
  · have : i ∈ idxWhere (fun _ r => empty_stop_mask r) rows := by
      rw [idxWhere_mem]
      exact ⟨r, hi, by simp [empty_stop_mask, hstop]⟩
    simp only [failedAttemptsIdx, List.mem_append]
    exact Or.inl (Or.inl (Or.inl (Or.inl this)))

/-- C3 witness: the concrete one-row dataset with an absent floor is
excluded with the empty-floor reason and never reaches the success table. -/
theorem c3_empty_floor_excluded_witness :
    changedAt ⟨["m"], 10, 50, fun _ => ⟨10, 20, 115, 0⟩⟩ 0
        ⟨some "8", none, none, none, none⟩ = false ∧
    primAt ⟨["m"], 10, 50, fun _ => ⟨10, 20, 115, 0⟩⟩ 0
        ⟨some "8", none, none, none, none⟩ = Reason.emptyStop ∧
    (0 : ℕ) ∈ failedAttemptsIdx ⟨["m"], 10, 50, fun _ => ⟨10, 20, 115, 0⟩⟩
        [⟨some "8", none, none, none, none⟩] ∧
    (0 : ℕ) ∉ forUpdateIdx ⟨["m"], 10, 50, fun _ => ⟨10, 20, 115, 0⟩⟩
        [⟨some "8", none, none, none, none⟩] ∧
    (0 : ℕ) ∉ priceChangeHistoryIdx ⟨["m"], 10, 50, fun _ => ⟨10, 20, 115, 0⟩⟩
        [⟨some "8", none, none, none, none⟩] :=
  c3_empty_floor_excluded ⟨["m"], 10, 50, fun _ => ⟨10, 20, 115, 0⟩⟩
    [⟨some "8", none, none, none, none⟩] 0 ⟨some "8", none, none, none, none⟩
    (by decide) (by decide)

/-!  Claim C9: a storage error in the audit writes aborts the cycle before
write-back and dispatch.  -/

/-- C9.  When an audit-store write fails — the failed-attempts insert with a
non-empty failed set, or the success insert with a non-empty changed set —
the sqlite3.Error is re-raised out of the decision phase and the cycle ends
in the error state without ever reaching the write-back of the final
dataframe or the dispatch of the changed rows. -/
theorem c9_storage_error_aborts_cycle (e : CmpEnv) (rows : List CRow)
    (f1 f2 : Bool)
    (h : (¬(failedAttemptsIdx e rows).isEmpty = true ∧ f1 = true) ∨
         (¬(forUpdateIdx e rows).isEmpty = true ∧ f2 = true)) :
    (runCycleTail e rows f1 f2).2 = true ∧
    CycleAction.writeBack ∉ (runCycleTail e rows f1 f2).1 ∧
    CycleAction.dispatch ∉ (runCycleTail e rows f1 f2).1 := by
  rcases h with ⟨hne, hf⟩ | ⟨hne, hf⟩
  · subst hf
    simp only [runCycleTail]
    rw [if_pos (by simp [hne])]
    simp
  · subst hf
    simp only [runCycleTail]
    by_cases h1 : (!(failedAttemptsIdx e rows).isEmpty && f1) = true
    · rw [if_pos h1]
      simp
    · rw [if_neg h1, if_pos (by simp [hne])]
      by_cases hfa : (failedAttemptsIdx e rows).isEmpty <;>
        simp [hfa]

/-- C9 witness: with a one-row dataset whose floor is absent (a non-empty
failed-attempts set) and a failing failed-attempts insert, the cycle aborts
with no write-back and no dispatch. -/
theorem c9_storage_error_aborts_cycle_witness :
    (runCycleTail ⟨["m"], 10, 50, fun _ => ⟨10, 20, 115, 0⟩⟩
        [⟨some "7", none, none, none, none⟩] true false).2 = true ∧
    CycleAction.writeBack ∉ (runCycleTail ⟨["m"], 10, 50, fun _ => ⟨10, 20, 115, 0⟩⟩
        [⟨some "7", none, none, none, none⟩] true false).1 ∧
    CycleAction.dispatch ∉ (runCycleTail ⟨["m"], 10, 50, fun _ => ⟨10, 20, 115, 0⟩⟩
        [⟨some "7", none, none, none, none⟩] true false).1 :=
  c9_storage_error_aborts_cycle ⟨["m"], 10, 50, fun _ => ⟨10, 20, 115, 0⟩⟩
    [⟨some "7", none, none, none, none⟩] true false (Or.inl ⟨by decide, rfl⟩)

/-!  Claim C7: the dispatch semaphore bounds the number of in-flight
requests by 4.  -/

lemma count_set_inFlight (s : List ReqState) (i : ℕ) (a v : ReqState)
    (h : s.get? i = some a) :
    (s.set i v).count ReqState.inFlight
        + (if a = ReqState.inFlight then 1 else 0)
      = s.count ReqState.inFlight + (if v = ReqState.inFlight then 1 else 0) := by
  induction s generalizing i with
  | nil => simp at h
  | cons b t ih =>
    cases i with
    | zero =>
      simp only [List.get?] at h
      cases h
      simp [List.count_cons]
      by_cases hb : a = ReqState.inFlight <;> by_cases hv : v = ReqState.inFlight <;>
        simp [hb, hv]
    | succ j =>
      simp only [List.get?] at h
      have := ih j h
      simp only [List.set, List.count_cons]
      by_cases hb : b = ReqState.inFlight <;> simp [hb] <;> omega

/-- C7.  In the transition system of the semaphore-guarded dispatch tasks
(asyncio.Semaphore(4) at update_ym.py line 21, acquired around every
request by rate_limited_request), every state reachable from a batch of n
pending tasks has at most semCapacity = 4 requests in flight, whatever the
batch size n. -/
theorem c7_at_most_four_in_flight (n : ℕ) (s : List ReqState)
    (h : DispatchReachable n s) : inFlightCount s ≤ semCapacity := by
  induction h with
  | refl =>
    simp [inFlightCount, initialBatch, List.count_replicate, semCapacity]
  | tail _ hstep ih =>
    cases hstep with
    | acquire i hi hc =>
      have hcount := count_set_inFlight _ i ReqState.pending ReqState.inFlight hi
      simp only [inFlightCount] at *
      simp at hcount
      omega
    | release i hi =>
      have hcount := count_set_inFlight _ i ReqState.inFlight ReqState.finished hi
      simp only [inFlightCount] at *
      simp at hcount
      omega

/-- C7 witness: the state after one acquire step in a batch of three tasks
is reachable and respects the bound. -/
theorem c7_at_most_four_in_flight_witness :
    inFlightCount [ReqState.inFlight, ReqState.pending, ReqState.pending]
      ≤ semCapacity :=
  c7_at_most_four_in_flight 3
    [ReqState.inFlight, ReqState.pending, ReqState.pending]
    (Relation.ReflTransGen.single
      (show DispatchStep (initialBatch 3)
          ((initialBatch 3).set 0 ReqState.inFlight) from
        DispatchStep.acquire (initialBatch 3) 0 (by decide)
          (by decide)))

/-!  Claim C8: a discount-base parse failure substitutes 0, warns, and
never aborts the item or the batch.  -/

/-- C8.  For a dispatch item whose discount base fails to parse as an
integer (update_ym.py lines 30-41), the engine substitutes 0 into the
payload, records the warning, and still emits the item's action — the
payload log in dry-run mode, the request otherwise; the batch always yields
one action per item, so the parse failure aborts nothing. -/
theorem c8_discount_parse_failure (debug : Bool) (it : DispatchItem)
    (h : pyIntOfVal it.discountBase = none) :
    (processOffer debug it).1.payload.discountBase = 0 ∧
    (processOffer debug it).2 = true ∧
    (debug = true → (processOffer debug it).1
        = DispatchAction.logPayload ⟨it.offerId, it.newPrice, 0⟩) ∧
    (debug = false → (processOffer debug it).1
        = DispatchAction.send ⟨it.offerId, it.newPrice, 0⟩) ∧
    ∀ items : List DispatchItem,
      (update_price_ym debug items).length = items.length := by
  refine ⟨?_, ?_, ?_, ?_, ?_⟩
  · cases debug <;> simp [processOffer, h, DispatchAction.payload]
  · simp [processOffer, h]
  · intro hd; subst hd; simp [processOffer, h]
  · intro hd; subst hd; simp [processOffer, h]
  · intro items; simp [update_price_ym]

/-- C8 witness: the Scenario D item with discountBase equal to the string
not-a-number is dispatched with discount base 0 and a warning, in both
modes, and a batch of one yields one action. -/
theorem c8_discount_parse_failure_witness :
    (processOffer false ⟨"ST16000NM001G", 31500, PyVal.vstr "not-a-number"⟩).1.payload.discountBase
        = 0 ∧
    (processOffer false ⟨"ST16000NM001G", 31500, PyVal.vstr "not-a-number"⟩).2 = true ∧
    (false = true → (processOffer false ⟨"ST16000NM001G", 31500, PyVal.vstr "not-a-number"⟩).1
        = DispatchAction.logPayload ⟨"ST16000NM001G", 31500, 0⟩) ∧
    (false = false → (processOffer false ⟨"ST16000NM001G", 31500, PyVal.vstr "not-a-number"⟩).1
        = DispatchAction.send ⟨"ST16000NM001G", 31500, 0⟩) ∧
    ∀ items : List DispatchItem,
      (update_price_ym false items).length = items.length :=
  c8_discount_parse_failure false ⟨"ST16000NM001G", 31500, PyVal.vstr "not-a-number"⟩
    (by decide)

/-!  Claim C2: the changed-row invariant.  -/

lemma floor_le_pyTrunc (q : ℚ) : ⌊q⌋ ≤ pyTrunc q := by
  unfold pyTrunc
  split
  · exact le_refl _
  · exact Int.floor_le_ceil q

lemma calc_changed_floor (r : CRow) (myMarket : List String) (mn mx : ℤ)
    (d : Draws) (hv : validDraws r mn mx d = true)
    (op m st : ℚ) (hop : r.price = some op) (hm : r.mp = some m)
    (hst : r.stop = some st)
    (hch : pyNeq (calculate_new_price r myMarket mn mx d).newPrice r.price = true) :
    (calculate_new_price r myMarket mn mx d).newPrice ≠ r.price ∧
    ∀ np : ℚ, (calculate_new_price r myMarket mn mx d).newPrice = some np →
      ((⌊st⌋ : ℤ) : ℚ) ≤ np := by
  obtain ⟨sku, price, mp, stop, holder⟩ := r
  simp only at hop hm hst
  subst hop hm hst
  have hr2 : 20 ≤ d.rand2 := by
    simp only [validDraws, Bool.and_eq_true, decide_eq_true_eq] at hv
    exact hv.1.2.1
  have hr2q : (0 : ℚ) ≤ (d.rand2 : ℚ) := by
    have : (0 : ℤ) ≤ d.rand2 := by omega
    exact_mod_cast this
  have hfl : ((⌊st⌋ : ℤ) : ℚ) ≤ st := Int.floor_le st
  simp only [calculate_new_price, calcErrRes, osub, ogt, oadd, olt, pymax, oge,
    pyEqCell, pyIntCell, b4Window, decide_eq_true_eq] at hch ⊢
  split_ifs at hch ⊢ <;>
    simp only [pyNeq, decide_eq_true_eq, Option.map_some'] at hch ⊢ <;>
    first
    | (exact absurd rfl hch)
    | (refine ⟨by simpa using hch, ?_⟩
       intro np hnp
       injection hnp with hnp
       subst hnp
       first
       | exact hfl
       | linarith)
    | skip
  all_goals
    (split_ifs at hch ⊢ <;>
      simp only [pyNeq, decide_eq_true_eq] at hch ⊢)
  all_goals
    first
    | (exact absurd rfl hch)
    | (refine ⟨by simpa using hch, ?_⟩
       intro np hnp
       injection hnp with hnp
       subst hnp
       have hb : ⌊st⌋ ≤ d.rand3 ⊔ pyTrunc st :=
         le_trans (floor_le_pyTrunc st) le_sup_right
       exact_mod_cast hb)

/-- C2, amended.  For every row whose three numeric cells parse and whose
decision is changed, the emitted new price differs from the old one and is
at least the floor price truncated to an integer (Python int(stop), the
clamp used by the normal-adjustment branch at line 330) — not necessarily
the floor price itself when that is not an integer. -/
theorem c2_changed_price_bounds (e : CmpEnv) (rows : List CRow)
    (hv : ∀ i r, rows[i]? = some r → validDraws r e.mn e.mx (e.draws i) = true)
    (i : ℕ) (hi : i ∈ forUpdateIdx e rows) (r : CRow)
    (hr : rows[i]? = some r) (op m st : ℚ) (hop : r.price = some op)
    (hm : r.mp = some m) (hst : r.stop = some st) :
    updatedPriceAt e i r ≠ r.price ∧
    ∀ np : ℚ, updatedPriceAt e i r = some np → ((⌊st⌋ : ℤ) : ℚ) ≤ np := by
  rw [forUpdateIdx, idxWhere_mem] at hi
  obtain ⟨r2, hr2, hpc⟩ := hi
  rw [hr] at hr2
  cases hr2
  simp only [changedAt, Bool.and_eq_true] at hpc
  obtain ⟨hmask, hneq⟩ := hpc
  have hcalc := calc_changed_floor r e.myMarket e.mn e.mx (e.draws i)
    (hv i r hr) op m st hop hm hst hneq
  rw [updatedPriceAt, if_pos hmask]
  exact hcalc

/-- C2 witness: the concrete eligible row (price 150, reference 120,
floor 100) with draw 115 is changed to 115, which differs from 150 and
respects the floor. -/
theorem c2_changed_price_bounds_witness :
    updatedPriceAt ⟨["m"], 10, 50, fun _ => ⟨10, 20, 115, 0⟩⟩ 0
        ⟨some "5", some 150, some 120, some 100, some "x"⟩
      ≠ (⟨some "5", some 150, some 120, some 100, some "x"⟩ : CRow).price ∧
    ∀ np : ℚ,
      updatedPriceAt ⟨["m"], 10, 50, fun _ => ⟨10, 20, 115, 0⟩⟩ 0
          ⟨some "5", some 150, some 120, some 100, some "x"⟩ = some np →
        ((⌊(100 : ℚ)⌋ : ℤ) : ℚ) ≤ np :=
  c2_changed_price_bounds ⟨["m"], 10, 50, fun _ => ⟨10, 20, 115, 0⟩⟩
    [⟨some "5", some 150, some 120, some 100, some "x"⟩]
    (by
      intro i r h
      match i, h with
      | 0, h =>
        cases h
        norm_num [validDraws, b4Window, pyIntCell, pyTrunc, osub, ogt, pymax])
    0
    (by
      norm_num [forUpdateIdx, idxWhere, idxWhereAux, changedAt, rowCalc,
        calculate_new_price, osub, ogt, olt, ole, oge, pymax, pyEqCell,
        b4Window, pyIntCell, pyTrunc, oadd, discountOf, eligMask,
        empty_stop_mask, pyNeq]
      simp)
    ⟨some "5", some 150, some 120, some 100, some "x"⟩
    rfl 150 120 100 rfl rfl rfl

/-- The C2 counterexample row: floor price 201/2 = 100.5, a non-integer. -/
def halfFloorRow : CRow := ⟨some "1", some 150, some 105, some (201/2), some "x"⟩

/-- The C2 counterexample environment: bounds 10/50 and the valid draw
randint(int(100.5), int(104)) = 100. -/
def halfFloorEnv : CmpEnv := ⟨["m"], 10, 50, fun _ => ⟨10, 20, 100, 0⟩⟩

/-- C2 counterexample: the row with floor 100.5 is decided changed with the
valid draw 100, and the emitted price 100 is strictly below the floor, so
changed == true does not imply newPrice >= floorPrice as claimed. -/
theorem c2_floor_undercut_counterexample :
    validDraws halfFloorRow 10 50 ⟨10, 20, 100, 0⟩ = true ∧
    (0 : ℕ) ∈ forUpdateIdx halfFloorEnv [halfFloorRow] ∧
    halfFloorRow.stop = some (201/2 : ℚ) ∧
    updatedPriceAt halfFloorEnv 0 halfFloorRow = some 100 ∧
    ¬ ((201/2 : ℚ) ≤ 100) := by
  refine ⟨?_, ?_, rfl, ?_, by norm_num⟩
  · norm_num [validDraws, halfFloorRow, b4Window, pyIntCell, pyTrunc, osub,
      ogt, pymax]
  · norm_num [forUpdateIdx, idxWhere, idxWhereAux, changedAt, rowCalc,
      halfFloorEnv, halfFloorRow, calculate_new_price, osub, ogt, olt, ole,
      oge, pymax, pyEqCell, b4Window, pyIntCell, pyTrunc, oadd, discountOf,
      eligMask, empty_stop_mask, pyNeq]
    simp
  · norm_num [updatedPriceAt, rowCalc, halfFloorEnv, halfFloorRow,
      calculate_new_price, osub, ogt, olt, ole, oge, pymax, pyEqCell,
      b4Window, pyIntCell, pyTrunc, oadd, discountOf, eligMask,
      empty_stop_mask]
    simp

/-!  Claim C4: Scenario A.  -/

/-- The Scenario A row: sku 123, current price 150, market reference 120,
floor 100, best-price holder a competitor. -/
def scenarioARow : CRow := ⟨some "123", some 150, some 120, some 100, some "competitor"⟩

/-- C4, amended.  The Scenario A row with bounds min = 10, max = 50 is
eligible, but since currentPrice - marketReferencePrice = 30 does not
exceed max = 50, calculate_new_price samples from the window
[max(marketReferencePrice - min, floor), marketReferencePrice - 1] =
[110, 119] (lines 320-321), not from [100, 110]: for every valid draw
randint(110, 119) = r the emitted price equals r and lies in [110, 119],
with the price-changed reason. -/
theorem c4_scenario_a_window (d : Draws) (h1 : 110 ≤ d.rand3)
    (h2 : d.rand3 ≤ 119) :
    eligMask scenarioARow = true ∧
    (calculate_new_price scenarioARow ["myshop"] 10 50 d).newPrice
        = some ((d.rand3 : ℤ) : ℚ) ∧
    (110 : ℚ) ≤ ((d.rand3 : ℤ) : ℚ) ∧ ((d.rand3 : ℤ) : ℚ) ≤ 119 ∧
    (calculate_new_price scenarioARow ["myshop"] 10 50 d).reason
        = Reason.priceChanged ∧
    pyNeq (calculate_new_price scenarioARow ["myshop"] 10 50 d).newPrice
        scenarioARow.price = true := by
  have hsup : d.rand3 ⊔ (100 : ℤ) = d.rand3 := sup_eq_left.mpr (by omega)
  have hq1 : (110 : ℚ) ≤ ((d.rand3 : ℤ) : ℚ) := by exact_mod_cast h1
  have hq2 : ((d.rand3 : ℤ) : ℚ) ≤ 119 := by exact_mod_cast h2
  have hne : ((d.rand3 : ℤ) : ℚ) ≠ 150 := by
    intro h
    have : (d.rand3 : ℤ) = 150 := by exact_mod_cast h
    omega
  refine ⟨by decide, ?_, hq1, hq2, ?_, ?_⟩
  · norm_num [calculate_new_price, scenarioARow, osub, ogt, olt, ole, oge,
      pymax, pyEqCell, b4Window, pyIntCell, pyTrunc, oadd, discountOf]
    simp [hsup]
    linarith
  · norm_num [calculate_new_price, scenarioARow, osub, ogt, olt, ole, oge,
      pymax, pyEqCell, b4Window, pyIntCell, pyTrunc, oadd, discountOf]
    simp [hsup]
  · norm_num [calculate_new_price, scenarioARow, osub, ogt, olt, ole, oge,
      pymax, pyEqCell, b4Window, pyIntCell, pyTrunc, oadd, discountOf]
    simp [hsup, pyNeq, hne]
    rw [sup_eq_left.mpr (by linarith : (100 : ℚ) ≤ ((d.rand3 : ℤ) : ℚ))]
    exact hne

/-- C4 witness: the draw 115 is sampled, the price becomes 115 inside
[110, 119]. -/
theorem c4_scenario_a_window_witness :
    eligMask scenarioARow = true ∧
    (calculate_new_price scenarioARow ["myshop"] 10 50 ⟨10, 20, 115, 0⟩).newPrice
        = some (((115 : ℤ) : ℚ)) ∧
    (110 : ℚ) ≤ (((115 : ℤ) : ℚ)) ∧ (((115 : ℤ) : ℚ)) ≤ 119 ∧
    (calculate_new_price scenarioARow ["myshop"] 10 50 ⟨10, 20, 115, 0⟩).reason
        = Reason.priceChanged ∧
    pyNeq (calculate_new_price scenarioARow ["myshop"] 10 50 ⟨10, 20, 115, 0⟩).newPrice
        scenarioARow.price = true :=
  c4_scenario_a_window ⟨10, 20, 115, 0⟩ (by norm_num) (by norm_num)

/-- C4 counterexample: the valid draw randint(110, 119) = 119 produces the
price 119, which is outside the claimed sampling interval [100, 110]. -/
theorem c4_scenario_a_counterexample :
    validDraws scenarioARow 10 50 ⟨10, 20, 119, 0⟩ = true ∧
    (calculate_new_price scenarioARow ["myshop"] 10 50 ⟨10, 20, 119, 0⟩).newPrice
        = some 119 ∧
    ¬ ((119 : ℚ) ≤ 110) := by
  refine ⟨?_, ?_, by norm_num⟩
  · norm_num [validDraws, scenarioARow, b4Window, pyIntCell, pyTrunc, osub,
      ogt, pymax]
  · norm_num [calculate_new_price, scenarioARow, osub, ogt, olt, ole, oge,
      pymax, pyEqCell, b4Window, pyIntCell, pyTrunc, oadd, discountOf]
    simp

/-!  Helper lemmas about the merger (claims C5 and C6).  -/

lemma dropDupFirst_sublist (seen : List (Option String)) (l : List MRow) :
    List.Sublist (dropDupFirst seen l) l := by
  induction l generalizing seen with
  | nil => simp [dropDupFirst]
  | cons r rs ih =>
    simp only [dropDupFirst]
    split
    · exact (ih seen).cons r
    · exact (ih _).cons₂ r

lemma dropDupFirst_keys (seen : List (Option String)) (l : List MRow) :
    ((dropDupFirst seen l).map skuKey).Nodup ∧
    ∀ k ∈ (dropDupFirst seen l).map skuKey, k ∉ seen := by
  induction l generalizing seen with
  | nil => simp [dropDupFirst]
  | cons r rs ih =>
    simp only [dropDupFirst]
    split
    · exact ih seen
    · rename_i hnotin
      obtain ⟨hnd, hnin⟩ := ih (skuKey r :: seen)
      refine ⟨?_, ?_⟩
      · simp only [List.map_cons, List.nodup_cons]
        refine ⟨fun hmem => (hnin _ hmem) (List.mem_cons_self _ _), hnd⟩
      · intro k hk
        simp only [List.map_cons, List.mem_cons] at hk
        rcases hk with rfl | hk
        · exact hnotin
        · exact fun hkseen => (hnin k hk) (List.mem_cons_of_mem _ hkseen)

lemma dropDupFirst_first_occ (seen : List (Option String)) (l : List MRow)
    (a : MRow) (h : a ∈ dropDupFirst seen l) :
    skuKey a ∉ seen ∧
    (l.filter (fun x => decide (skuKey x = skuKey a))).head? = some a := by
  induction l generalizing seen with
  | nil => simp [dropDupFirst] at h
  | cons r rs ih =>
    simp only [dropDupFirst] at h
    by_cases hr : skuKey r ∈ seen
    · rw [if_pos hr] at h
      obtain ⟨hna, hhead⟩ := ih seen h
      refine ⟨hna, ?_⟩
      rw [List.filter_cons, if_neg (by
        simp only [decide_eq_true_eq]
        intro he; rw [he] at hr; exact hna hr)]
      exact hhead
    · rw [if_neg hr] at h
      rcases List.mem_cons.mp h with rfl | h2
      · refine ⟨hr, ?_⟩
        rw [List.filter_cons, if_pos (by simp)]
        rfl
      · obtain ⟨hna, hhead⟩ := ih _ h2
        have hnane : skuKey a ∉ seen ∧ skuKey r ≠ skuKey a := by
          constructor
          · exact fun hseen => hna (List.mem_cons_of_mem _ hseen)
          · intro he
            exact hna (he ▸ List.mem_cons_self _ _)
        refine ⟨hnane.1, ?_⟩
        rw [List.filter_cons, if_neg (by simp [hnane.2])]
        exact hhead

lemma dropDupFirst_covers (seen : List (Option String)) (l : List MRow)
    (b : MRow) (hb : b ∈ l) :
    skuKey b ∈ seen ∨ ∃ a ∈ dropDupFirst seen l, skuKey a = skuKey b := by
  induction l generalizing seen with
  | nil => cases hb
  | cons r rs ih =>
    simp only [dropDupFirst]
    rcases List.mem_cons.mp hb with rfl | hb2
    · by_cases hr : skuKey b ∈ seen
      · exact Or.inl hr
      · right
        rw [if_neg hr]
        exact ⟨b, List.mem_cons_self _ _, rfl⟩
    · by_cases hr : skuKey r ∈ seen
      · rw [if_pos hr]
        exact ih seen hb2
      · rw [if_neg hr]
        rcases ih (skuKey r :: seen) hb2 with hmem | ⟨a, ha, hk⟩
        · rcases List.mem_cons.mp hmem with he | hseen
          · exact Or.inr ⟨r, List.mem_cons_self _ _, he.symm⟩
          · exact Or.inl hseen
        · exact Or.inr ⟨a, List.mem_cons_of_mem _ ha, hk⟩

lemma dropDupFirst_append_seen (seen : List (Option String)) (xs ys : List MRow)
    (h : ∀ x ∈ xs, skuKey x ∈ seen) :
    dropDupFirst seen (xs ++ ys) = dropDupFirst seen ys := by
  induction xs with
  | nil => rfl
  | cons x xs ih =>
    rw [List.cons_append]
    simp only [dropDupFirst]
    rw [if_pos (h x (List.mem_cons_self _ _))]
    exact ih (fun y hy => h y (List.mem_cons_of_mem _ hy))

lemma dropDupFirst_flatMap_len (d1 : List MRow) (blocks : MRow → List MRow)
    (seen : List (Option String))
    (hnd : (d1.map skuKey).Nodup)
    (hns : ∀ a ∈ d1, skuKey a ∉ seen)
    (hb : ∀ a ∈ d1, blocks a ≠ [] ∧ ∀ x ∈ blocks a, skuKey x = skuKey a) :
    (dropDupFirst seen (d1.flatMap blocks)).length = d1.length := by
  induction d1 generalizing seen with
  | nil => simp [dropDupFirst]
  | cons a rest ih =>
    obtain ⟨hane, hkeys⟩ := hb a (List.mem_cons_self _ _)
    cases hbe : blocks a with
    | nil => exact absurd hbe hane
    | cons h0 t =>
      have hkh0 : skuKey h0 = skuKey a :=
        hkeys h0 (by rw [hbe]; exact List.mem_cons_self _ _)
      have hkt : ∀ x ∈ t, skuKey x = skuKey a := fun x hx =>
        hkeys x (by rw [hbe]; exact List.mem_cons_of_mem _ hx)
      rw [List.flatMap_cons, hbe, List.cons_append]
      simp only [dropDupFirst]
      rw [if_neg (hkh0 ▸ hns a (List.mem_cons_self _ _))]
      rw [dropDupFirst_append_seen _ t _
        (fun x hx => by rw [hkt x hx, ← hkh0]; exact List.mem_cons_self _ _)]
      simp only [List.length_cons]
      rw [ih]
      · simp only [List.map_cons, List.nodup_cons] at hnd
        exact hnd.2
      · intro a2 ha2
        simp only [List.map_cons, List.nodup_cons] at hnd
        intro hmem
        rcases List.mem_cons.mp hmem with he | hseen
        · rw [hkh0] at he
          exact hnd.1 (he ▸ List.mem_map_of_mem skuKey ha2)
        · exact hns a2 (List.mem_cons_of_mem _ ha2) hseen
      · exact fun a2 ha2 => hb a2 (List.mem_cons_of_mem _ ha2)

lemma dropDupFirst_length (seen : List (Option String)) (l : List MRow) :
    (dropDupFirst seen l).length
      = ((l.map skuKey).toFinset \ seen.toFinset).card := by
  induction l generalizing seen with
  | nil => simp [dropDupFirst]
  | cons r rs ih =>
    simp only [dropDupFirst, List.map_cons, List.toFinset_cons]
    by_cases hr : skuKey r ∈ seen
    · rw [if_pos hr, ih seen]
      congr 1
      exact (Finset.insert_sdiff_of_mem _ (List.mem_toFinset.mpr hr)).symm
    · rw [if_neg hr]
      simp only [List.length_cons, ih (skuKey r :: seen), List.toFinset_cons]
      have h1 : insert (skuKey r) (rs.map skuKey).toFinset \ seen.toFinset
          = insert (skuKey r) ((rs.map skuKey).toFinset
              \ insert (skuKey r) seen.toFinset) := by
        ext x
        simp only [Finset.mem_sdiff, Finset.mem_insert, List.mem_toFinset]
        constructor
        · rintro ⟨rfl | hx, hns⟩
          · exact Or.inl rfl
          · by_cases hxr : x = skuKey r
            · exact Or.inl hxr
            · exact Or.inr ⟨hx, fun h => (h.elim hxr hns)⟩
        · rintro (rfl | ⟨hx, hni⟩)
          · exact ⟨Or.inl rfl, hr⟩
          · exact ⟨Or.inr hx, fun h => hni (Or.inr h)⟩
      rw [h1, Finset.card_insert_of_not_mem (by simp)]

lemma sku_not_mem_updateColumns (cols2 : Col → Bool) :
    Col.sku ∉ updateColumns cols2 := by
  intro h
  simp only [updateColumns, List.mem_append, List.mem_filter] at h
  rcases h with ⟨h, _⟩ | ⟨h, _⟩ <;> simp at h

lemma combineRow_sku (cols2 : Col → Bool) (r1 r2 : MRow) :
    skuKey (combineRow (updateColumns cols2) r1 r2) = skuKey r1 := by
  simp [skuKey, combineRow, sku_not_mem_updateColumns cols2]

lemma rightOnly_sku (uc : List Col) (r2 : MRow) :
    skuKey (rightOnly uc r2) = skuKey r2 := by
  simp [skuKey, rightOnly]

lemma combineRow_mem_val (uc : List Col) (a b : MRow) (c : Col) (hc : c ∈ uc) :
    (((b c).isSome → combineRow uc a b c = b c)
      ∧ ((b c) = none → combineRow uc a b c = a c)) := by
  unfold combineRow
  rw [if_pos hc]
  cases hbc : b c <;> simp [hbc, Option.orElse]

lemma combineRow_not_mem_val (uc : List Col) (a b : MRow) (c : Col)
    (hc : c ∉ uc) : combineRow uc a b c = a c := by
  unfold combineRow
  rw [if_neg hc]

lemma update_dataframe_mem (df1 df2 : List MRow) (cols2 : Col → Bool)
    (r : MRow) (h : r ∈ update_dataframe df1 df2 cols2) :
    (∃ a ∈ dropDupFirst [] (df1.map normalizeRow),
      (∃ b ∈ df2.map normalizeRow, skuKey b = skuKey a
          ∧ r = combineRow (updateColumns cols2) a b)
      ∨ (((df2.map normalizeRow).filter
            (fun b => decide (skuKey b = skuKey a))) = [] ∧ r = a))
    ∨ (∃ b ∈ df2.map normalizeRow,
        (∀ a ∈ dropDupFirst [] (df1.map normalizeRow), skuKey a ≠ skuKey b)
        ∧ r = rightOnly (updateColumns cols2) b) := by
  unfold update_dataframe at h
  have h2 := (dropDupFirst_sublist _ _).subset h
  rcases List.mem_append.mp h2 with hl | hr
  · rw [List.mem_flatMap] at hl
    obtain ⟨a, ha, hra⟩ := hl
    left
    refine ⟨a, ha, ?_⟩
    by_cases hms : ((df2.map normalizeRow).filter
        (fun b => decide (skuKey b = skuKey a))).isEmpty
    · rw [if_pos hms] at hra
      exact Or.inr ⟨List.isEmpty_iff.mp hms, (List.mem_singleton.mp hra)⟩
    · rw [if_neg hms] at hra
      obtain ⟨b, hb, hcomb⟩ := List.mem_map.mp hra
      have hbf := List.mem_filter.mp hb
      exact Or.inl ⟨b, hbf.1, by simpa using hbf.2, hcomb.symm⟩
  · right
    obtain ⟨b, hb, hro⟩ := List.mem_map.mp hr
    have hbf := List.mem_filter.mp hb
    refine ⟨b, hbf.1, ?_, hro.symm⟩
    intro a ha
    have h3 := hbf.2
    simp only [Bool.not_eq_true', List.any_eq_false, decide_eq_true_eq] at h3
    exact h3 a ha

/-- C5.  update_dataframe performs a full outer join on the normalized SKU:
no duplicate SKU survives the merge; the own-listing side is deduplicated by
first occurrence (every retained own row is the head of the rows sharing its
key); every result row is either a matched row in which each update column
carries the market value when that value is non-empty and the own-listing
value otherwise (non-update columns always the own value), an own-only row
kept verbatim, or a market-only row. -/
theorem c5_merge_outer_join (df1 df2 : List MRow) (cols2 : Col → Bool) :
    ((update_dataframe df1 df2 cols2).map skuKey).Nodup ∧
    (∀ a ∈ dropDupFirst [] (df1.map normalizeRow),
      ((df1.map normalizeRow).filter
          (fun x => decide (skuKey x = skuKey a))).head? = some a) ∧
    ∀ r ∈ update_dataframe df1 df2 cols2,
      (∃ a ∈ dropDupFirst [] (df1.map normalizeRow),
        (∃ b ∈ df2.map normalizeRow, skuKey b = skuKey a ∧
          (∀ c ∈ updateColumns cols2,
            ((b c).isSome → r c = b c) ∧ ((b c) = none → r c = a c)) ∧
          (∀ c, c ∉ updateColumns cols2 → r c = a c))
        ∨ (((df2.map normalizeRow).filter
              (fun b => decide (skuKey b = skuKey a))) = [] ∧ r = a))
      ∨ (∃ b ∈ df2.map normalizeRow,
          (∀ a ∈ dropDupFirst [] (df1.map normalizeRow), skuKey a ≠ skuKey b)
          ∧ r = rightOnly (updateColumns cols2) b) := by
  refine ⟨?_, ?_, ?_⟩
  · have := (dropDupFirst_keys ([] : List (Option String))
      ((dropDupFirst [] (df1.map normalizeRow)).flatMap (fun a =>
        let ms := (df2.map normalizeRow).filter
          (fun b => decide (skuKey b = skuKey a))
        if ms.isEmpty then [a]
        else ms.map (fun b => combineRow (updateColumns cols2) a b))
      ++ ((df2.map normalizeRow).filter
          (fun b => !((dropDupFirst [] (df1.map normalizeRow)).any
            (fun a => decide (skuKey a = skuKey b))))).map
          (rightOnly (updateColumns cols2)))).1
    exact this
  · exact fun a ha => (dropDupFirst_first_occ [] _ a ha).2
  · intro r hr
    rcases update_dataframe_mem df1 df2 cols2 r hr with
      ⟨a, ha, ⟨b, hb, hk, hcomb⟩ | hown⟩ | ⟨b, hb, hnomatch, hro⟩
    · left
      refine ⟨a, ha, Or.inl ⟨b, hb, hk, ?_, ?_⟩⟩
      · intro c hc
        rw [hcomb]
        exact combineRow_mem_val _ a b c hc
      · intro c hc
        rw [hcomb]
        exact combineRow_not_mem_val _ a b c hc
    · exact Or.inl ⟨a, ha, Or.inr hown⟩
    · exact Or.inr ⟨b, hb, hnomatch, hro⟩

lemma rightOnly_mem_val (uc : List Col) (b : MRow) (c : Col) (hc : c ∈ uc) :
    rightOnly uc b c = b c := by
  unfold rightOnly
  rw [if_pos (Or.inr hc)]

/-- C6.  Merging a dataset with itself yields exactly one row per distinct
normalized SKU, and every result row takes its update-column values from
the market-source row of its SKU whenever that value is non-empty. -/
theorem c6_self_merge_idempotent (d : List MRow) (cols2 : Col → Bool) :
    (update_dataframe d d cols2).length = distinctSkuCount d ∧
    ∀ r ∈ update_dataframe d d cols2, ∃ b ∈ d.map normalizeRow,
      skuKey b = skuKey r ∧
      ∀ c ∈ updateColumns cols2, (b c).isSome → r c = b c := by
  constructor
  · have hright : ((d.map normalizeRow).filter
        (fun b => !((dropDupFirst [] (d.map normalizeRow)).any
          (fun a => decide (skuKey a = skuKey b))))) = [] := by
      rw [List.filter_eq_nil_iff]
      intro b hb
      rcases dropDupFirst_covers [] (d.map normalizeRow) b hb with hmem | ⟨a, ha, hk⟩
      · cases hmem
      · simp only [Bool.not_eq_true', Bool.not_eq_false, List.any_eq_true,
          decide_eq_true_eq]
        exact ⟨a, ha, hk⟩
    have heq : update_dataframe d d cols2
        = dropDupFirst [] ((dropDupFirst [] (d.map normalizeRow)).flatMap
            (fun a =>
              let ms := (d.map normalizeRow).filter
                (fun b => decide (skuKey b = skuKey a))
              if ms.isEmpty then [a]
              else ms.map (fun b => combineRow (updateColumns cols2) a b))) := by
      simp only [update_dataframe]
      rw [hright]
      simp
    rw [heq]
    rw [dropDupFirst_flatMap_len _ _ []
      (dropDupFirst_keys [] (d.map normalizeRow)).1
      (fun a _ => List.not_mem_nil (skuKey a))
      ?_]
    · rw [dropDupFirst_length [] (d.map normalizeRow)]
      simp [distinctSkuCount]
    · intro a ha
      by_cases hms : ((d.map normalizeRow).filter
          (fun b => decide (skuKey b = skuKey a))).isEmpty
      · constructor
        · simp only [hms, if_true]
          exact List.cons_ne_nil a []
        · intro x hx
          simp only [hms, if_true] at hx
          rw [List.mem_singleton.mp hx]
      · constructor
        · rw [if_neg (by simp [hms])]
          intro hmap
          rw [List.map_eq_nil_iff] at hmap
          rw [hmap] at hms
          exact hms rfl
        · intro x hx
          rw [if_neg (by simp [hms])] at hx
          obtain ⟨b, _, rfl⟩ := List.mem_map.mp hx
          exact combineRow_sku cols2 a b
  · intro r hr
    rcases update_dataframe_mem d d cols2 r hr with
      ⟨a, ha, ⟨b, hb, hk, hcomb⟩ | ⟨hfil, hra⟩⟩ | ⟨b, hb, hnm, hro⟩
    · refine ⟨b, hb, ?_, ?_⟩
      · rw [hcomb, combineRow_sku, hk]
      · intro c hc hbs
        rw [hcomb]
        exact (combineRow_mem_val _ a b c hc).1 hbs
    · refine ⟨a, (dropDupFirst_sublist [] _).subset ha, by rw [hra], ?_⟩
      intro c hc _
      rw [hra]
    · refine ⟨b, hb, by rw [hro, rightOnly_sku], ?_⟩
      intro c hc _
      rw [hro, rightOnly_mem_val _ b c hc]

end YMBidder
